import Mathlib

/-!
Shallow embedding of the operational scripts of this repository
(`scripts/deploy_agent.py`, `scripts/cleanup_ecr.py`, `scripts/test_agent.py`)
and proofs of the specified properties.

Remote AWS calls are modelled by environments that record the result each
call would return (success value, or the exception it would raise); each
embedded function returns the value the Python function produces together
with the trace of remote calls it issues and the files it writes, so that
claims about "no call issued" and "no record written" are statable.
-/

/-- A generic Python exception (anything caught by `except Exception`). -/
structure PyErr where
  msg : String
deriving DecidableEq, Repr

/- ================================================================
   scripts/cleanup_ecr.py
   ================================================================ -/

/-- One element of `describe_images(...)["imageDetails"]`: an ECR image
record.  `imageDigest` and `imagePushedAt` are optional keys of the dict;
`imagePushedAt` is modelled as an epoch timestamp (a `Nat`), matching the
code's use of `0` as the default sort key for an absent timestamp. -/
structure ImageDetail where
  imageDigest : Option String
  imagePushedAt : Option Nat
deriving DecidableEq, Repr

/-- The sort key of `sorted(images["imageDetails"], key=lambda x:
x.get("imagePushedAt", 0), reverse=True)`: the timestamp, defaulting to 0. -/
def sortKey (img : ImageDetail) : Nat :=
  img.imagePushedAt.getD 0

/-- The ordering relation realising Python's `sorted(..., key=sortKey,
reverse=True)`: `x` precedes `y` when `y`'s key is at most `x`'s key. -/
def sortGE (x y : ImageDetail) : Prop :=
  sortKey y ≤ sortKey x

instance : DecidableRel sortGE := fun _x _y => Nat.decLe _ _

instance : IsTotal ImageDetail sortGE := ⟨fun x y => Nat.le_total (sortKey y) (sortKey x)⟩

instance : IsTrans ImageDetail sortGE := ⟨fun _ _ _ h h' => le_trans h' h⟩

/-- Python's `sorted(images, key=lambda x: x.get("imagePushedAt", 0),
reverse=True)`.  Python's sort is stable: among equal keys the original
order is kept.  `List.insertionSort sortGE` has exactly this behaviour:
an element is inserted before the first element of equal-or-smaller key,
so earlier elements stay before later elements of equal key. -/
def sortDesc (images : List ImageDetail) : List ImageDetail :=
  List.insertionSort sortGE images

/-- Python slice `l[k:]` for an arbitrary (possibly negative) `int` index:
a negative index counts from the end, clamped at 0. -/
def pySliceFrom (k : Int) (l : List α) : List α :=
  if k < 0 then l.drop ((l.length + k).toNat) else l.drop k.toNat

/-- Python slice `l[:k]` for an arbitrary `int` index (the complement of
`pySliceFrom`, so that `l[:k] + l[k:] == l`). -/
def pySliceTake (k : Int) (l : List α) : List α :=
  if k < 0 then l.take ((l.length + k).toNat) else l.take k.toNat

/-- Result of `process_repository`: the sorted image list, the slice
`sorted_images[keep_count:]` selected for deletion, and the
`batch_delete_image` call (`none` when no call is issued, otherwise the
list of digests passed as `imageIds`). -/
structure PruneResult where
  sorted : List ImageDetail
  imagesToDelete : List ImageDetail
  batchCall : Option (List String)
deriving DecidableEq, Repr

/-- `process_repository(ecr_client, repo_name, keep_count)` of
`scripts/cleanup_ecr.py`, with the `describe_images` response passed in as
`images`.  Sorts by push timestamp descending (missing timestamp → key 0),
slices off everything beyond `keep_count`, keeps only entries carrying an
`imageDigest`, and issues one batch delete when that set is non-empty. -/
def process_repository (keep_count : Int) (images : List ImageDetail) : PruneResult :=
  let sorted_images := sortDesc images
  let images_to_delete := pySliceFrom keep_count sorted_images
  if images_to_delete.isEmpty then
    ⟨sorted_images, images_to_delete, none⟩
  else
    let image_ids := images_to_delete.filterMap (fun img => img.imageDigest)
    if image_ids.isEmpty then
      ⟨sorted_images, images_to_delete, none⟩
    else
      ⟨sorted_images, images_to_delete, some image_ids⟩

/-- Outcome of `describe_repositories(repositoryNames=[repository_name])`:
success, the distinguished `RepositoryNotFoundException`, or any other
exception. -/
inductive RepoLookup
  | found
  | notFound
  | failure (e : PyErr)
deriving DecidableEq, Repr

/-- Environment of one `cleanup_ecr_images` run: what the repository
lookup returns, and the image list `describe_images` would return. -/
structure EcrEnv where
  lookup : RepoLookup
  images : List ImageDetail

/-- `cleanup_ecr_images(region, keep_count, repository_name)` of
`scripts/cleanup_ecr.py`.  Only `RepositoryNotFoundException` is caught
(logged and skipped, modelled as `.ok none`); any other lookup exception
propagates.  On success the repository is processed; `process_repository`
catches its own exceptions, so it never propagates. -/
def cleanup_ecr_images (env : EcrEnv) (keep_count : Int) : Except PyErr (Option PruneResult) :=
  match env.lookup with
  | .found => .ok (some (process_repository keep_count env.images))
  | .notFound => .ok none
  | .failure e => .error e

/-- Number of images actually deleted: size of the batch-delete call, 0
when no call was issued or the repository was skipped. -/
def deletedCount (r : Option PruneResult) : Nat :=
  match r with
  | none => 0
  | some pr => (pr.batchCall.getD []).length

/-- Number of images kept, as reported by the script:
`min(len(sorted_images), keep_count)`; 0 when the repository was skipped. -/
def keptCount (keep_count : Int) (r : Option PruneResult) : Int :=
  match r with
  | none => 0
  | some pr => min (pr.sorted.length : Int) keep_count

/-- The images that survive the slice: `sorted_images[:keep_count]`. -/
def keptImages (keep_count : Int) (pr : PruneResult) : List ImageDetail :=
  pySliceTake keep_count pr.sorted

/- ================================================================
   scripts/deploy_agent.py
   ================================================================ -/

/-- A botocore `ClientError`, identified by its
`e.response["Error"]["Code"]` string. -/
structure ClientError where
  code : String
  msg : String
deriving DecidableEq, Repr

/-- One element of `list_agent_runtimes()["agentRuntimes"]`. -/
structure AgentRuntime where
  agentRuntimeName : String
  agentRuntimeId : String
  agentRuntimeArn : String
deriving DecidableEq, Repr

/-- Response of `create_agent_runtime` / `update_agent_runtime`. -/
structure ApiResponse where
  agentRuntimeArn : String
  agentRuntimeId : String
deriving DecidableEq, Repr

/-- Contents of `deployment_info.txt` as written by `deploy_agent`. -/
structure DeploymentInfo where
  agent_arn : String
  agent_id : String
  ecr_uri : String
deriving DecidableEq, Repr

/-- A control-plane call issued by `deploy_agent`, in order. -/
inductive ApiCall
  | listCall
  | createCall (name uri role : String)
  | updateCall (id uri role : String)
deriving DecidableEq, Repr

/-- How one run of `deploy_agent` ends: a successful deployment, or one of
the four `exit(1)` sites (missing `role_arn.txt`; existing agent with
auto-update disabled; the list/create race of line 113; the outer
`ClientError` handler of line 137, which carries the error unchanged). -/
inductive DeployOutcome
  | success (info : DeploymentInfo)
  | errMissingRole
  | errConflictExists
  | errAmbiguousConflict
  | errClient (e : ClientError)
deriving DecidableEq, Repr

/-- Result of one `deploy_agent` run: the outcome, the trace of
control-plane calls issued, and the `deployment_info.txt` record written
(`none` when the run fails before writing it). -/
structure DeployResult where
  outcome : DeployOutcome
  calls : List ApiCall
  written : Option DeploymentInfo
deriving DecidableEq, Repr

/-- Environment of one `deploy_agent` run: the contents of `role_arn.txt`
(`none` models `FileNotFoundError`), what `list_agent_runtimes` returns or
raises, and what `create_agent_runtime` / `update_agent_runtime` would
return or raise. -/
structure DeployEnv where
  roleArnFile : Option String
  listRuntimes : Except PyErr (List AgentRuntime)
  createRuntime : Except ClientError ApiResponse
  updateRuntime : Except ClientError ApiResponse

/-- `deploy_agent(agent_name, region, container_uri, auto_update)` of
`scripts/deploy_agent.py`.

Faithful points: a failure of `list_agent_runtimes` is caught by the
inner `except Exception` (line 74) and merely logged, leaving
`existing_agent = None`, so the flow falls through to the create path; a
`ConflictException` on create with `auto_update` is the ambiguous race
`exit(1)` (line 114); any other `ClientError` from create or update is
re-raised / propagated to the outer handler (line 137) which exits with
the error unchanged. -/
def deploy_agent (env : DeployEnv) (agent_name : String) (_region : String)
    (container_uri : String) (auto_update : Bool) : DeployResult :=
  match env.roleArnFile with
  | none => ⟨.errMissingRole, [], none⟩
  | some role_arn =>
    let existing_agent : Option AgentRuntime :=
      match env.listRuntimes with
      | .ok agents => agents.find? (fun a => a.agentRuntimeName == agent_name)
      | .error _ => none
    match existing_agent with
    | some ag =>
      if auto_update then
        match env.updateRuntime with
        | .ok resp =>
          let info : DeploymentInfo := ⟨resp.agentRuntimeArn, resp.agentRuntimeId, container_uri⟩
          ⟨.success info, [.listCall, .updateCall ag.agentRuntimeId container_uri role_arn],
            some info⟩
        | .error e =>
          ⟨.errClient e, [.listCall, .updateCall ag.agentRuntimeId container_uri role_arn], none⟩
      else
        ⟨.errConflictExists, [.listCall], none⟩
    | none =>
      match env.createRuntime with
      | .ok resp =>
        let info : DeploymentInfo := ⟨resp.agentRuntimeArn, resp.agentRuntimeId, container_uri⟩
        ⟨.success info, [.listCall, .createCall agent_name container_uri role_arn], some info⟩
      | .error e =>
        if e.code == "ConflictException" && auto_update then
          ⟨.errAmbiguousConflict, [.listCall, .createCall agent_name container_uri role_arn], none⟩
        else
          ⟨.errClient e, [.listCall, .createCall agent_name container_uri role_arn], none⟩

/-- Whether a call in the trace is an update call. -/
def ApiCall.isUpdate : ApiCall → Bool
  | .updateCall _ _ _ => true
  | _ => false

/- ================================================================
   scripts/test_agent.py
   ================================================================ -/

/-- Result of `json.loads` on the drained streaming body: a dict (modelled
as an association list of string fields), some other JSON value, or a
`JSONDecodeError` (the text was not JSON). -/
inductive StreamParse
  | jsonDict (fields : List (String × String))
  | jsonValue (v : String)
  | notJson (text : String)
deriving DecidableEq, Repr

/-- Shape of one successfully returned `invoke_agent_runtime` response:
a streaming `response` body (already drained and decoded, with its JSON
parse outcome), a direct `payload` (already decoded from bytes if
needed), or neither — a bare status/session response, whose `statusCode`
and `runtimeSessionId` keys may be absent. -/
inductive InvokeResponse
  | streaming (body : StreamParse)
  | payload (text : String)
  | statusOnly (statusCode : Option Nat) (sessionId : Option String)
deriving DecidableEq, Repr

/-- What the harness logs for one test case (its terminal state). -/
inductive CaseSummary
  | fieldContent (v : String)
  | fieldMessage (v : String)
  | fieldText (v : String)
  | wholeJson (fields : List (String × String))
  | rawValue (v : String)
  | plainText (t : String)
  | payloadText (t : String)
  | httpPass (code : Nat) (session : String)
  | failed (e : PyErr)
deriving DecidableEq, Repr

/-- The response-shape classification of lines 129–162 of
`scripts/test_agent.py`: streaming JSON dicts surface `content`, then
`message`, then `text`, else the whole structure; non-dict JSON and
non-JSON text are shown as-is; payloads are shown verbatim; a bare
response passes with `statusCode` defaulting to 200 and session id to
`"N/A"`. -/
def classify_response : InvokeResponse → CaseSummary
  | .streaming (.jsonDict fields) =>
    match fields.lookup "content" with
    | some v => .fieldContent v
    | none =>
      match fields.lookup "message" with
      | some v => .fieldMessage v
      | none =>
        match fields.lookup "text" with
        | some v => .fieldText v
        | none => .wholeJson fields
  | .streaming (.jsonValue v) => .rawValue v
  | .streaming (.notJson t) => .plainText t
  | .payload t => .payloadText t
  | .statusOnly code session => .httpPass (code.getD 200) (session.getD "N/A")

/-- One iteration of the test loop: an exception anywhere in invoking or
decoding marks the case failed; every non-raising case is a pass. -/
def run_case (r : Except PyErr InvokeResponse) : CaseSummary × Bool :=
  match r with
  | .ok resp => (classify_response resp, true)
  | .error e => (.failed e, false)

/-- The fixed battery of prompts of `scripts/test_agent.py`. -/
def test_cases : List String :=
  ["What is 2 + 2?",
   "Calculate 15 * 7",
   "What is 100 / 4?",
   "What is the square root of 16?",
   "Calculate (5 + 3) * 2",
   "Hello, how are you?",
   "What can you help me with?",
   "Explain what 2^3 equals",
   "Can you solve 25 - 8?",
   "What is 0.5 + 0.3?"]

/-- Environment of one `test_agent` run: what `list_agent_runtimes`
returns or raises, what `get_agent_runtime(agentRuntimeId=...)` returns
or raises (keyed by runtime id), and the result of the `i`-th
`invoke_agent_runtime` call (including the draining/decoding of its
body — an exception anywhere in that try block is the `.error` case). -/
structure TestEnv where
  listRuntimes : Except PyErr (List AgentRuntime)
  getStatus : String → Except PyErr String
  invoke : Nat → Except PyErr InvokeResponse

/-- Result of one `test_agent` run: the returned boolean, how many
`invoke_agent_runtime` calls were issued, and the per-case outcomes
(empty when the run stops before the test loop). -/
structure TestResult where
  returnValue : Bool
  invocationsIssued : Nat
  cases : List (CaseSummary × Bool)
deriving DecidableEq, Repr

/-- `test_agent(agent_name, region)` of `scripts/test_agent.py`.

Stops with `False` (issuing no invocation) when: listing raises, the name
is not found (or its arn is falsy — the empty string), the status query
raises, or the status is not exactly `READY`.  Otherwise runs every test
case: each case issues one invocation, an exception in one case marks
only that case failed, and the return value is `True` iff no case
failed. -/
def test_agent (env : TestEnv) (agent_name : String) (_region : String) : TestResult :=
  match env.listRuntimes with
  | .error _ => ⟨false, 0, []⟩
  | .ok runtimes =>
    match runtimes.find? (fun r => r.agentRuntimeName == agent_name) with
    | none => ⟨false, 0, []⟩
    | some rt =>
      if rt.agentRuntimeArn = "" then ⟨false, 0, []⟩
      else
        match env.getStatus rt.agentRuntimeId with
        | .error _ => ⟨false, 0, []⟩
        | .ok status =>
          if status = "READY" then
            let outcomes := (List.range test_cases.length).map (fun i => run_case (env.invoke i))
            ⟨outcomes.all (fun o => o.2), test_cases.length, outcomes⟩
          else ⟨false, 0, []⟩

/- ================================================================
   Theorems: Reconciler (deploy_agent)
   ================================================================ -/

/-- C1: when the target name is absent from the prior runtime listing and
the create call then fails with a naming-conflict signal
(`ConflictException`): with `auto_update` the run ends in the distinct
fatal `errAmbiguousConflict` outcome and no update call is issued; without
`auto_update` the conflict `ClientError` is propagated unchanged (the
re-raise of line 116 reaching the outer handler of line 137). -/
theorem deploy_create_conflict_race (env : DeployEnv)
    (agent_name region container_uri role : String) (agents : List AgentRuntime)
    (e : ClientError)
    (hrole : env.roleArnFile = some role)
    (hlist : env.listRuntimes = .ok agents)
    (habsent : ∀ a ∈ agents, a.agentRuntimeName ≠ agent_name)
    (hcreate : env.createRuntime = .error e)
    (hconf : e.code = "ConflictException") :
    deploy_agent env agent_name region container_uri true =
      ⟨.errAmbiguousConflict, [.listCall, .createCall agent_name container_uri role], none⟩
    ∧ (∀ c ∈ (deploy_agent env agent_name region container_uri true).calls,
        c.isUpdate = false)
    ∧ (deploy_agent env agent_name region container_uri false).outcome =
        .errClient e := by
  have hnone : agents.find? (fun a => a.agentRuntimeName == agent_name) = none :=
    List.find?_eq_none.mpr (fun a ha => by simp [habsent a ha])
  refine ⟨?_, ?_, ?_⟩ <;>
    simp [deploy_agent, hrole, hlist, hnone, hcreate, hconf, ApiCall.isUpdate]

/-- Witness for C1 at a concrete environment. -/
theorem deploy_create_conflict_race_witness :
    deploy_agent
        ⟨some "arn:role", .ok [], .error ⟨"ConflictException", "exists"⟩, .ok ⟨"a", "i"⟩⟩
        "myagent" "us-east-1" "uri:1" true =
      ⟨.errAmbiguousConflict, [.listCall, .createCall "myagent" "uri:1" "arn:role"], none⟩ :=
  (deploy_create_conflict_race
      ⟨some "arn:role", .ok [], .error ⟨"ConflictException", "exists"⟩, .ok ⟨"a", "i"⟩⟩
      "myagent" "us-east-1" "uri:1" "arn:role" [] ⟨"ConflictException", "exists"⟩
      rfl rfl (by simp) rfl rfl).1

/-- C2: when the runtime listing contains the target name and
`auto_update` is false, `deploy_agent` fails with the conflict outcome of
line 81, having issued only the list call — no create call, no update
call — and writes no deployment record. -/
theorem deploy_existing_no_auto_update_conflict (env : DeployEnv)
    (agent_name region container_uri role : String) (agents : List AgentRuntime)
    (hrole : env.roleArnFile = some role)
    (hlist : env.listRuntimes = .ok agents)
    (hfound : ∃ a ∈ agents, a.agentRuntimeName = agent_name) :
    deploy_agent env agent_name region container_uri false =
      ⟨.errConflictExists, [.listCall], none⟩ := by
  obtain ⟨a, ha, hname⟩ := hfound
  have hsome : (agents.find? (fun a => a.agentRuntimeName == agent_name)).isSome :=
    List.find?_isSome.mpr ⟨a, ha, by simp [hname]⟩
  obtain ⟨ag, hag⟩ := Option.isSome_iff_exists.mp hsome
  simp [deploy_agent, hrole, hlist, hag]

/-- Witness for C2 at a concrete environment. -/
theorem deploy_existing_no_auto_update_conflict_witness :
    deploy_agent
        ⟨some "arn:role", .ok [⟨"myagent", "id0", "arn0"⟩], .ok ⟨"a", "i"⟩, .ok ⟨"a", "i"⟩⟩
        "myagent" "us-east-1" "uri:1" false =
      ⟨.errConflictExists, [.listCall], none⟩ :=
  deploy_existing_no_auto_update_conflict
    ⟨some "arn:role", .ok [⟨"myagent", "id0", "arn0"⟩], .ok ⟨"a", "i"⟩, .ok ⟨"a", "i"⟩⟩
    "myagent" "us-east-1" "uri:1" "arn:role" [⟨"myagent", "id0", "arn0"⟩]
    rfl rfl ⟨⟨"myagent", "id0", "arn0"⟩, by simp⟩

/-- Counterexample to C3 as stated: a failure of the initial list
operation is NOT propagated as a fatal condition.  In this environment
`list_agent_runtimes` raises, yet the run falls through to the create
path (the `except Exception` of line 74 swallows the error) and ends in
success — a fallback to another code path, contradicting the claim. -/
theorem deploy_list_failure_not_fatal_cex :
    (deploy_agent
        ⟨some "arn:role", .error ⟨"ListFailure"⟩, .ok ⟨"arn1", "id1"⟩, .ok ⟨"a", "i"⟩⟩
        "myagent" "us-east-1" "uri:1" true).outcome =
      .success ⟨"arn1", "id1", "uri:1"⟩ := rfl

/-- C3 amended: failures of the create call (other than the handled
naming-conflict-with-auto-update case) and of the update call are
propagated unchanged as the fatal `errClient` outcome, with no retry;
but a failure of the initial list operation is caught and treated as
"resource absent", falling through to the create path. -/
theorem deploy_error_propagation_amended (env : DeployEnv)
    (agent_name region container_uri role : String)
    (hrole : env.roleArnFile = some role) :
    (∀ (agents : List AgentRuntime) (ag : AgentRuntime) (e : ClientError),
        env.listRuntimes = .ok agents →
        agents.find? (fun a => a.agentRuntimeName == agent_name) = some ag →
        env.updateRuntime = .error e →
        (deploy_agent env agent_name region container_uri true).outcome = .errClient e)
    ∧ (∀ (agents : List AgentRuntime) (e : ClientError) (auto_update : Bool),
        env.listRuntimes = .ok agents →
        (∀ a ∈ agents, a.agentRuntimeName ≠ agent_name) →
        env.createRuntime = .error e →
        (e.code = "ConflictException" → auto_update = false) →
        (deploy_agent env agent_name region container_uri auto_update).outcome = .errClient e)
    ∧ (∀ (pe : PyErr) (resp : ApiResponse) (auto_update : Bool),
        env.listRuntimes = .error pe →
        env.createRuntime = .ok resp →
        (deploy_agent env agent_name region container_uri auto_update).outcome =
          .success ⟨resp.agentRuntimeArn, resp.agentRuntimeId, container_uri⟩) := by
  refine ⟨?_, ?_, ?_⟩
  · intro agents ag e hlist hfind hupd
    simp [deploy_agent, hrole, hlist, hfind, hupd]
  · intro agents e auto_update hlist habsent hcreate hnotrace
    have hnone : agents.find? (fun a => a.agentRuntimeName == agent_name) = none :=
      List.find?_eq_none.mpr (fun a ha => by simp [habsent a ha])
    by_cases hc : e.code = "ConflictException"
    · simp [deploy_agent, hrole, hlist, hnone, hcreate, hc, hnotrace hc]
    · simp [deploy_agent, hrole, hlist, hnone, hcreate, hc]
  · intro pe resp auto_update hlist hcreate
    simp [deploy_agent, hrole, hlist, hcreate]

/-- Witness for the amended C3 at a concrete environment: a non-conflict
create failure surfaces as the fatal outcome carrying the error
unchanged. -/
theorem deploy_error_propagation_amended_witness :
    (deploy_agent
        ⟨some "arn:role", .ok [], .error ⟨"AccessDenied", "no"⟩, .ok ⟨"a", "i"⟩⟩
        "myagent" "us-east-1" "uri:1" true).outcome =
      .errClient ⟨"AccessDenied", "no"⟩ :=
  (deploy_error_propagation_amended
      ⟨some "arn:role", .ok [], .error ⟨"AccessDenied", "no"⟩, .ok ⟨"a", "i"⟩⟩
      "myagent" "us-east-1" "uri:1" "arn:role" rfl).2.1
    [] ⟨"AccessDenied", "no"⟩ true rfl (by simp) rfl (by simp)

/- ================================================================
   Theorems: Validation Harness (test_agent)
   ================================================================ -/

/-- C8: if the resource is absent from the runtime listing, or its
queried status is anything other than `READY`, `test_agent` returns
`False` having issued zero invocations.  (The embedding is a total
function — every exception of those two phases is caught by the source's
`except` blocks, so no exception escapes either.) -/
theorem validate_not_ready_no_invocation (env : TestEnv) (agent_name region : String) :
    (∀ (runtimes : List AgentRuntime), env.listRuntimes = .ok runtimes →
      (∀ a ∈ runtimes, a.agentRuntimeName ≠ agent_name) →
      test_agent env agent_name region = ⟨false, 0, []⟩)
    ∧ (∀ (runtimes : List AgentRuntime) (rt : AgentRuntime) (status : String),
      env.listRuntimes = .ok runtimes →
      runtimes.find? (fun r => r.agentRuntimeName == agent_name) = some rt →
      env.getStatus rt.agentRuntimeId = .ok status →
      status ≠ "READY" →
      test_agent env agent_name region = ⟨false, 0, []⟩) := by
  constructor
  · intro runtimes hlist habsent
    have hnone : runtimes.find? (fun r => r.agentRuntimeName == agent_name) = none :=
      List.find?_eq_none.mpr (fun a ha => by simp [habsent a ha])
    simp [test_agent, hlist, hnone]
  · intro runtimes rt status hlist hfind hstatus hready
    by_cases harn : rt.agentRuntimeArn = ""
    · simp [test_agent, hlist, hfind, harn]
    · simp [test_agent, hlist, hfind, harn, hstatus, hready]

/-- Witness for C8 at a concrete environment: the listing holds only a
differently named runtime. -/
theorem validate_not_ready_no_invocation_witness :
    test_agent
        ⟨.ok [⟨"other", "id0", "arn0"⟩], fun _ => .ok "READY", fun _ => .ok (.payload "x")⟩
        "myagent" "us-east-1" = ⟨false, 0, []⟩ :=
  (validate_not_ready_no_invocation
      ⟨.ok [⟨"other", "id0", "arn0"⟩], fun _ => .ok "READY", fun _ => .ok (.payload "x")⟩
      "myagent" "us-east-1").1
    [⟨"other", "id0", "arn0"⟩] rfl (by decide)

/-- C9: once the resource is found and `READY`, every test case is
executed (one invocation per case, `test_cases.length` in total), each
case's outcome is computed from its own invocation result alone, the
return value is the conjunction of the per-case outcomes, and a single
raising case forces the overall result to `False` without suppressing the
other cases. -/
theorem validate_case_fault_isolation (env : TestEnv) (agent_name region : String)
    (runtimes : List AgentRuntime) (rt : AgentRuntime)
    (hlist : env.listRuntimes = .ok runtimes)
    (hfind : runtimes.find? (fun r => r.agentRuntimeName == agent_name) = some rt)
    (harn : rt.agentRuntimeArn ≠ "")
    (hstatus : env.getStatus rt.agentRuntimeId = .ok "READY") :
    (test_agent env agent_name region).invocationsIssued = test_cases.length
    ∧ (test_agent env agent_name region).cases =
        (List.range test_cases.length).map (fun i => run_case (env.invoke i))
    ∧ (test_agent env agent_name region).returnValue =
        ((List.range test_cases.length).map (fun i => run_case (env.invoke i))).all
          (fun o => o.2)
    ∧ (∀ (j : Nat) (e : PyErr), j < test_cases.length → env.invoke j = .error e →
        (test_agent env agent_name region).returnValue = false) := by
  have hres : test_agent env agent_name region =
      ⟨((List.range test_cases.length).map (fun i => run_case (env.invoke i))).all
          (fun o => o.2),
        test_cases.length,
        (List.range test_cases.length).map (fun i => run_case (env.invoke i))⟩ := by
    simp [test_agent, hlist, hfind, harn, hstatus]
  refine ⟨by rw [hres], by rw [hres], by rw [hres], ?_⟩
  intro j e hj hje
  rw [hres]
  refine Bool.eq_false_iff.mpr (fun hall => ?_)
  have hmem : run_case (env.invoke j) ∈
      (List.range test_cases.length).map (fun i => run_case (env.invoke i)) :=
    List.mem_map.mpr ⟨j, List.mem_range.mpr hj, rfl⟩
  have := List.all_eq_true.mp hall (run_case (env.invoke j)) hmem
  rw [hje] at this
  simp [run_case] at this

/-- Witness for C9 at a concrete environment: ten cases, the fourth
raises a transport error, overall result `False`. -/
theorem validate_case_fault_isolation_witness :
    (test_agent
        ⟨.ok [⟨"myagent", "id0", "arn0"⟩], fun _ => .ok "READY",
          fun i => if i = 3 then .error ⟨"transport"⟩ else .ok (.payload "ok")⟩
        "myagent" "us-east-1").returnValue = false :=
  (validate_case_fault_isolation
      ⟨.ok [⟨"myagent", "id0", "arn0"⟩], fun _ => .ok "READY",
        fun i => if i = 3 then .error ⟨"transport"⟩ else .ok (.payload "ok")⟩
      "myagent" "us-east-1" [⟨"myagent", "id0", "arn0"⟩] ⟨"myagent", "id0", "arn0"⟩
      rfl (by decide) (by decide) rfl).2.2.2
    3 ⟨"transport"⟩ (by decide) rfl

/-- C10 (implicit): a case that returns without raising is recorded as
passed whatever the response holds — the harness never checks any
answer — so for a found, `READY` resource the harness returns `True` iff
no test case raises. -/
theorem validate_content_agnostic (env : TestEnv) (agent_name region : String)
    (runtimes : List AgentRuntime) (rt : AgentRuntime)
    (hlist : env.listRuntimes = .ok runtimes)
    (hfind : runtimes.find? (fun r => r.agentRuntimeName == agent_name) = some rt)
    (harn : rt.agentRuntimeArn ≠ "")
    (hstatus : env.getStatus rt.agentRuntimeId = .ok "READY") :
    (∀ resp : InvokeResponse, (run_case (.ok resp)).2 = true)
    ∧ ((test_agent env agent_name region).returnValue = true ↔
        ∀ i < test_cases.length, ∃ resp, env.invoke i = .ok resp) := by
  have hres : test_agent env agent_name region =
      ⟨((List.range test_cases.length).map (fun i => run_case (env.invoke i))).all
          (fun o => o.2),
        test_cases.length,
        (List.range test_cases.length).map (fun i => run_case (env.invoke i))⟩ := by
    simp [test_agent, hlist, hfind, harn, hstatus]
  refine ⟨fun _resp => rfl, ?_⟩
  rw [hres]
  show (((List.range test_cases.length).map (fun i => run_case (env.invoke i))).all
      (fun o => o.2) = true) ↔ _
  rw [List.all_eq_true]
  constructor
  · intro h i hi
    have hmem : run_case (env.invoke i) ∈
        (List.range test_cases.length).map (fun j => run_case (env.invoke j)) :=
      List.mem_map.mpr ⟨i, List.mem_range.mpr hi, rfl⟩
    have := h (run_case (env.invoke i)) hmem
    cases hei : env.invoke i with
    | ok r => exact ⟨r, rfl⟩
    | error e => rw [hei] at this; simp [run_case] at this
  · intro h o ho
    obtain ⟨i, hi, rfl⟩ := List.mem_map.mp ho
    obtain ⟨resp, hresp⟩ := h i (List.mem_range.mp hi)
    rw [hresp]
    rfl

/-- Witness for C10 at a concrete environment in which every response is
a bare status with no content at all: the harness still returns `True`. -/
theorem validate_content_agnostic_witness :
    (test_agent
        ⟨.ok [⟨"myagent", "id0", "arn0"⟩], fun _ => .ok "READY",
          fun _ => .ok (.statusOnly none none)⟩
        "myagent" "us-east-1").returnValue = true :=
  (validate_content_agnostic
      ⟨.ok [⟨"myagent", "id0", "arn0"⟩], fun _ => .ok "READY",
        fun _ => .ok (.statusOnly none none)⟩
      "myagent" "us-east-1" [⟨"myagent", "id0", "arn0"⟩] ⟨"myagent", "id0", "arn0"⟩
      rfl (by decide) (by decide) rfl).2.mpr
    (fun _i _hi => ⟨.statusOnly none none, rfl⟩)

/- ================================================================
   Sorting and slicing lemmas for the Retention Pruner
   ================================================================ -/

theorem sortDesc_perm (l : List ImageDetail) : (sortDesc l).Perm l :=
  List.perm_insertionSort _ l

theorem sortDesc_sorted (l : List ImageDetail) : List.Sorted sortGE (sortDesc l) :=
  List.sorted_insertionSort _ l

theorem sortDesc_length (l : List ImageDetail) : (sortDesc l).length = l.length :=
  (sortDesc_perm l).length_eq

theorem pySliceFrom_nonneg {k : Int} (hk : 0 ≤ k) (l : List α) :
    pySliceFrom k l = l.drop k.toNat := by
  rw [pySliceFrom, if_neg (not_lt.mpr hk)]

theorem pySliceTake_nonneg {k : Int} (hk : 0 ≤ k) (l : List α) :
    pySliceTake k l = l.take k.toNat := by
  rw [pySliceTake, if_neg (not_lt.mpr hk)]

theorem pySliceFrom_neg {k : Int} (hk : k < 0) (l : List α) :
    pySliceFrom k l = l.drop ((l.length + k).toNat) := by
  rw [pySliceFrom, if_pos hk]

theorem pySliceTake_neg {k : Int} (hk : k < 0) (l : List α) :
    pySliceTake k l = l.take ((l.length + k).toNat) := by
  rw [pySliceTake, if_pos hk]

/-- A `filterMap` that never drops anything keeps the length. -/
theorem length_filterMap_digest (l : List ImageDetail)
    (h : ∀ x ∈ l, x.imageDigest.isSome) :
    (l.filterMap (fun i => i.imageDigest)).length = l.length := by
  induction l with
  | nil => rfl
  | cons a t ih =>
    obtain ⟨d, hd⟩ := Option.isSome_iff_exists.mp (h a (by simp))
    simp [List.filterMap_cons, hd, ih (fun x hx => h x (by simp [hx]))]

/-- The two timestamp filters partition the length. -/
theorem length_filter_pushedAt (l : List ImageDetail) :
    (l.filter (fun i => i.imagePushedAt.isSome)).length
      + (l.filter (fun i => i.imagePushedAt.isNone)).length = l.length := by
  induction l with
  | nil => rfl
  | cons a t ih =>
    cases ha : a.imagePushedAt with
    | none => simp only [List.filter_cons, ha]; simp; omega
    | some v => simp only [List.filter_cons, ha]; simp; omega

/-- In a descending-sorted list in which every present timestamp is
positive, all dated images form a prefix and all undated images form a
suffix: the list is its dated filter followed by its undated filter. -/
theorem sorted_dated_prefix (S : List ImageDetail)
    (hs : List.Sorted sortGE S)
    (hpos : ∀ x ∈ S, ∀ t, x.imagePushedAt = some t → 0 < t) :
    S = S.filter (fun i => i.imagePushedAt.isSome)
      ++ S.filter (fun i => i.imagePushedAt.isNone) := by
  induction S with
  | nil => rfl
  | cons a t ih =>
    rw [List.sorted_cons] at hs
    obtain ⟨hab, hst⟩ := hs
    cases ha : a.imagePushedAt with
    | some v =>
      have heq := ih hst (fun x hx => hpos x (List.mem_cons_of_mem a hx))
      simp only [List.filter_cons, ha, Option.isSome_some, Option.isNone_some,
        if_true, if_false, List.cons_append]
      exact congrArg (a :: ·) heq
    | none =>
      have hall : ∀ b ∈ t, b.imagePushedAt = none := by
        intro b hb
        have h1 : sortGE a b := hab b hb
        unfold sortGE sortKey at h1
        rw [ha] at h1
        cases hbp : b.imagePushedAt with
        | none => rfl
        | some w =>
          have hw := hpos b (List.mem_cons_of_mem a hb) w hbp
          rw [hbp] at h1
          simp at h1
          omega
      have h₁ : t.filter (fun i => i.imagePushedAt.isSome) = [] :=
        List.filter_eq_nil_iff.mpr (fun x hx => by simp [hall x hx])
      have h₀ : t.filter (fun i => i.imagePushedAt.isNone) = t :=
        List.filter_eq_self.mpr (fun x hx => by simp [hall x hx])
      simp [List.filter_cons, ha, h₁, h₀]

theorem process_repository_sorted (k : Int) (images : List ImageDetail) :
    (process_repository k images).sorted = sortDesc images := by
  unfold process_repository
  dsimp only
  split
  · rfl
  · split <;> rfl

theorem process_repository_toDelete (k : Int) (images : List ImageDetail) :
    (process_repository k images).imagesToDelete = pySliceFrom k (sortDesc images) := by
  unfold process_repository
  dsimp only
  split
  · rfl
  · split <;> rfl

theorem process_repository_batch_none_of_empty (k : Int) (images : List ImageDetail)
    (h : pySliceFrom k (sortDesc images) = []) :
    (process_repository k images).batchCall = none := by
  unfold process_repository
  dsimp only
  rw [if_pos (by simp [h])]

theorem process_repository_batch_some (k : Int) (images : List ImageDetail)
    (h1 : pySliceFrom k (sortDesc images) ≠ [])
    (h2 : (pySliceFrom k (sortDesc images)).filterMap (fun i => i.imageDigest) ≠ []) :
    (process_repository k images).batchCall =
      some ((pySliceFrom k (sortDesc images)).filterMap (fun i => i.imageDigest)) := by
  unfold process_repository
  dsimp only
  rw [if_neg (by simp [h1]), if_neg (by simp [h2])]

/- ================================================================
   Theorems: Retention Pruner (cleanup_ecr)
   ================================================================ -/

/-- C7: when the repository lookup fails with
`RepositoryNotFoundException`, `cleanup_ecr_images` is non-fatal: it
returns normally (no error propagated) with the repository skipped —
`describe_images` and `batch_delete_image` are never reached (the
processed result is `none`) — and both reported counts are zero. -/
theorem cleanup_repo_absent_non_fatal (images : List ImageDetail) (keep_count : Int) :
    cleanup_ecr_images ⟨.notFound, images⟩ keep_count = .ok none
    ∧ deletedCount none = 0
    ∧ keptCount keep_count none = 0 :=
  ⟨rfl, rfl, rfl⟩

/-- Counterexample to C4 as stated: with one image lacking an
`imageDigest` and `keepCount = 0`, the claim demands exactly
`max(0, 1 - 0) = 1` deletion ("keepCount = 0 ⇒ every image is deleted"),
but the digest-less image is silently excluded, the batch is empty, no
delete call is issued, and zero images are deleted. -/
theorem prune_exact_count_cex :
    (process_repository 0 [⟨none, some 5⟩]).batchCall = none
    ∧ deletedCount (some (process_repository 0 [⟨none, some 5⟩])) = 0
    ∧ ¬ deletedCount (some (process_repository 0 [⟨none, some 5⟩])) =
        [(⟨none, some 5⟩ : ImageDetail)].length - 0 := by
  decide

/-- C4 amended: for `keepCount ≥ 0`, `prune` *selects* exactly
`max(0, len(images) − keepCount)` images for deletion (`images.length -
k.toNat` in truncated subtraction) and deletes those among them exposing
a content identifier — so when every image carries a digest it deletes
exactly `max(0, len − keepCount)`; the kept slice is exactly the
`keepCount` images with the largest `pushedAt` key (it has length
`min keepCount len`, together with the deletion set it decomposes the
sort — a permutation of the input — and each kept key dominates each
deleted key); `keepCount ≥ len` ⇒ no delete call is issued; and with
`keepCount = 0` every digest of the input ends up in the delete batch. -/
theorem prune_retention_amended (images : List ImageDetail) (k : Int) (hk : 0 ≤ k) :
    (process_repository k images).imagesToDelete.length = images.length - k.toNat
    ∧ (process_repository k images).sorted.Perm images
    ∧ keptImages k (process_repository k images) ++ (process_repository k images).imagesToDelete
        = (process_repository k images).sorted
    ∧ (keptImages k (process_repository k images)).length = min k.toNat images.length
    ∧ (∀ x ∈ keptImages k (process_repository k images),
        ∀ y ∈ (process_repository k images).imagesToDelete, sortKey y ≤ sortKey x)
    ∧ ((images.length : Int) ≤ k → (process_repository k images).batchCall = none)
    ∧ ((∀ img ∈ images, img.imageDigest.isSome) →
        deletedCount (some (process_repository k images)) = images.length - k.toNat)
    ∧ (k = 0 → ∀ img ∈ images, ∀ d, img.imageDigest = some d →
        d ∈ ((process_repository k images).batchCall.getD [])) := by
  have hS : (process_repository k images).sorted = sortDesc images :=
    process_repository_sorted k images
  have hTD : (process_repository k images).imagesToDelete = (sortDesc images).drop k.toNat := by
    rw [process_repository_toDelete, pySliceFrom_nonneg hk]
  have hKI : keptImages k (process_repository k images) = (sortDesc images).take k.toNat := by
    rw [keptImages, hS, pySliceTake_nonneg hk]
  have hlen : (sortDesc images).length = images.length := sortDesc_length images
  refine ⟨?_, ?_, ?_, ?_, ?_, ?_, ?_, ?_⟩
  · rw [hTD, List.length_drop, hlen]
  · rw [hS]; exact sortDesc_perm images
  · rw [hKI, hTD, hS]; exact List.take_append_drop _ _
  · rw [hKI, List.length_take, hlen]
  · intro x hx y hy
    have hsorted := sortDesc_sorted images
    rw [hKI] at hx
    rw [hTD] at hy
    have hdecomp : sortDesc images =
        (sortDesc images).take k.toNat ++ (sortDesc images).drop k.toNat :=
      (List.take_append_drop _ _).symm
    rw [hdecomp] at hsorted
    exact (List.pairwise_append.mp hsorted).2.2 x hx y hy
  · intro hle
    apply process_repository_batch_none_of_empty
    rw [pySliceFrom_nonneg hk]
    apply List.drop_eq_nil_of_le
    rw [hlen]
    omega
  · intro hdig
    by_cases hempty : (sortDesc images).drop k.toNat = []
    · have h1 : ((sortDesc images).drop k.toNat).length = 0 := by rw [hempty]; rfl
      rw [List.length_drop, hlen] at h1
      have hb := process_repository_batch_none_of_empty k images
        (by rw [pySliceFrom_nonneg hk]; exact hempty)
      simp [deletedCount, hb, h1]
    · have hmem : ∀ x ∈ (sortDesc images).drop k.toNat, x.imageDigest.isSome := by
        intro x hx
        exact hdig x ((sortDesc_perm images).mem_iff.mp (List.mem_of_mem_drop hx))
      have hids_len :
          (((sortDesc images).drop k.toNat).filterMap (fun i => i.imageDigest)).length =
            ((sortDesc images).drop k.toNat).length :=
        length_filterMap_digest _ hmem
      have hids_ne :
          ((sortDesc images).drop k.toNat).filterMap (fun i => i.imageDigest) ≠ [] := by
        intro hc
        rw [hc] at hids_len
        exact hempty (List.length_eq_zero.mp hids_len.symm)
      have hb := process_repository_batch_some k images
        (by rw [pySliceFrom_nonneg hk]; exact hempty)
        (by rw [pySliceFrom_nonneg hk]; exact hids_ne)
      rw [pySliceFrom_nonneg hk] at hb
      simp [deletedCount, hb, hids_len, List.length_drop, hlen]
  · intro hk0 img himg d hd
    subst hk0
    have hdrop0 : pySliceFrom (0 : Int) (sortDesc images) = sortDesc images := by
      rw [pySliceFrom_nonneg le_rfl]
      simp
    have himgS : img ∈ sortDesc images := (sortDesc_perm images).mem_iff.mpr himg
    have hmemids : d ∈ (sortDesc images).filterMap (fun i => i.imageDigest) :=
      List.mem_filterMap.mpr ⟨img, himgS, hd⟩
    have hSne : sortDesc images ≠ [] := by
      intro hc
      rw [hc] at himgS
      simp at himgS
    have hids_ne : (sortDesc images).filterMap (fun i => i.imageDigest) ≠ [] := by
      intro hc
      rw [hc] at hmemids
      simp at hmemids
    have hb := process_repository_batch_some 0 images
      (by rw [hdrop0]; exact hSne) (by rw [hdrop0]; exact hids_ne)
    rw [hdrop0] at hb
    rw [hb]
    exact hmemids

/-- Witness for the amended C4 at a concrete input: three digested
images, `keepCount = 2` ⇒ exactly one (oldest) image deleted. -/
theorem prune_retention_amended_witness :
    deletedCount (some (process_repository 2
        [⟨some "d1", some 30⟩, ⟨some "d2", some 10⟩, ⟨some "d3", some 20⟩])) = 1 := by
  have h := (prune_retention_amended
      [⟨some "d1", some 30⟩, ⟨some "d2", some 10⟩, ⟨some "d3", some 20⟩] 2
      (by decide)).2.2.2.2.2.2.1 (by decide)
  simpa using h

/-- Counterexample to C5 as stated: an undated image does NOT sort
strictly after every image that has a timestamp.  The undated image's
default key 0 ties with a dated image pushed at timestamp 0, and the
stable sort keeps the undated image first — here prune with
`keepCount = 1` even deletes the dated image and keeps the undated one. -/
theorem prune_undated_tie_cex :
    sortDesc [⟨some "u", none⟩, ⟨some "d", some 0⟩] =
      [⟨some "u", none⟩, ⟨some "d", some 0⟩]
    ∧ (process_repository 1 [⟨some "u", none⟩, ⟨some "d", some 0⟩]).batchCall = some ["d"]
    ∧ keptImages 1 (process_repository 1 [⟨some "u", none⟩, ⟨some "d", some 0⟩]) =
        [⟨some "u", none⟩] := by
  decide

/-- C5 amended: undated images use the default key 0, so they sort after
every image with a *positive* timestamp (ties with timestamp-0 images
are broken by listing order, not strictly).  Hence in a repository of 12
digested images of which 3 are undated and every present timestamp is
positive, `prune` with `keepCount = 9` deletes exactly the 3 undated
images and keeps the 9 dated ones. -/
theorem prune_undated_oldest_amended (images : List ImageDetail)
    (hlen : images.length = 12)
    (hundated : (images.filter (fun i => i.imagePushedAt.isNone)).length = 3)
    (hpos : ∀ img ∈ images, img.imagePushedAt = none ∨ 0 < sortKey img)
    (hdig : ∀ img ∈ images, img.imageDigest.isSome) :
    (process_repository 9 images).imagesToDelete.length = 3
    ∧ (∀ x ∈ (process_repository 9 images).imagesToDelete, x.imagePushedAt = none)
    ∧ (keptImages 9 (process_repository 9 images)).length = 9
    ∧ (∀ x ∈ keptImages 9 (process_repository 9 images), x.imagePushedAt.isSome)
    ∧ deletedCount (some (process_repository 9 images)) = 3 := by
  have hperm := sortDesc_perm images
  have hSlen : (sortDesc images).length = 12 := by rw [sortDesc_length, hlen]
  have hpos2 : ∀ x ∈ sortDesc images, ∀ t, x.imagePushedAt = some t → 0 < t := by
    intro x hx t ht
    rcases hpos x (hperm.mem_iff.mp hx) with h | h
    · rw [ht] at h
      exact absurd h (by simp)
    · rw [sortKey, ht] at h
      simpa using h
  have hsplit := sorted_dated_prefix (sortDesc images) (sortDesc_sorted images) hpos2
  have hfN : ((sortDesc images).filter (fun i => i.imagePushedAt.isNone)).length = 3 := by
    have h := (hperm.filter (fun i => i.imagePushedAt.isNone)).length_eq
    rw [h, hundated]
  have hfS : ((sortDesc images).filter (fun i => i.imagePushedAt.isSome)).length = 9 := by
    have h := length_filter_pushedAt (sortDesc images)
    omega
  have hdrop : (sortDesc images).drop 9 =
      (sortDesc images).filter (fun i => i.imagePushedAt.isNone) := by
    conv_lhs => rw [hsplit]
    exact List.drop_left' hfS
  have htake : (sortDesc images).take 9 =
      (sortDesc images).filter (fun i => i.imagePushedAt.isSome) := by
    conv_lhs => rw [hsplit]
    exact List.take_left' hfS
  have h9 : Int.toNat 9 = 9 := by decide
  have hslice : pySliceFrom (9 : Int) (sortDesc images) = (sortDesc images).drop 9 := by
    rw [pySliceFrom_nonneg (by decide), h9]
  have hTD : (process_repository 9 images).imagesToDelete = (sortDesc images).drop 9 := by
    rw [process_repository_toDelete, hslice]
  have hKI : keptImages 9 (process_repository 9 images) = (sortDesc images).take 9 := by
    rw [keptImages, process_repository_sorted, pySliceTake_nonneg (by decide), h9]
  refine ⟨?_, ?_, ?_, ?_, ?_⟩
  · rw [hTD, hdrop, hfN]
  · intro x hx
    rw [hTD, hdrop] at hx
    have := (List.mem_filter.mp hx).2
    simpa [Option.isNone_iff_eq_none] using this
  · rw [hKI, htake, hfS]
  · intro x hx
    rw [hKI, htake] at hx
    exact (List.mem_filter.mp hx).2
  · have hmemdig : ∀ x ∈ (sortDesc images).drop 9, x.imageDigest.isSome := by
      intro x hx
      exact hdig x (hperm.mem_iff.mp (List.mem_of_mem_drop hx))
    have hlen3 : ((sortDesc images).drop 9).length = 3 := by rw [hdrop, hfN]
    have hids_len :
        (((sortDesc images).drop 9).filterMap (fun i => i.imageDigest)).length =
          ((sortDesc images).drop 9).length :=
      length_filterMap_digest _ hmemdig
    have hdropne : (sortDesc images).drop 9 ≠ [] := by
      intro hc
      rw [hc] at hlen3
      exact absurd hlen3 (by simp)
    have hids_ne : ((sortDesc images).drop 9).filterMap (fun i => i.imageDigest) ≠ [] := by
      intro hc
      rw [hc] at hids_len
      exact hdropne (List.length_eq_zero.mp hids_len.symm)
    have hb := process_repository_batch_some 9 images
      (by rw [hslice]; exact hdropne) (by rw [hslice]; exact hids_ne)
    rw [hslice] at hb
    simp [deletedCount, hb, hids_len, hlen3]

/-- Witness for the amended C5 at a concrete 12-image repository: 9
dated images with positive timestamps and 3 undated ones, kept count 9 ⇒
exactly 3 deletions. -/
theorem prune_undated_oldest_amended_witness :
    deletedCount (some (process_repository 9
        [⟨some "d1", some 10⟩, ⟨some "d2", some 20⟩, ⟨some "d3", some 30⟩,
         ⟨some "u1", none⟩, ⟨some "d4", some 40⟩, ⟨some "d5", some 50⟩,
         ⟨some "u2", none⟩, ⟨some "d6", some 60⟩, ⟨some "d7", some 70⟩,
         ⟨some "d8", some 80⟩, ⟨some "u3", none⟩, ⟨some "d9", some 90⟩])) = 3 :=
  (prune_undated_oldest_amended
      [⟨some "d1", some 10⟩, ⟨some "d2", some 20⟩, ⟨some "d3", some 30⟩,
       ⟨some "u1", none⟩, ⟨some "d4", some 40⟩, ⟨some "d5", some 50⟩,
       ⟨some "u2", none⟩, ⟨some "d6", some 60⟩, ⟨some "d7", some 70⟩,
       ⟨some "d8", some 80⟩, ⟨some "u3", none⟩, ⟨some "d9", some 90⟩]
      (by decide) (by decide) (by decide) (by decide)).2.2.2.2

/-- Counterexample to C6 as stated: a negative `keepCount` does NOT
produce "keep none, delete all".  Python's `l[-1:]` is the LAST one
element, so `keepCount = -1` on a two-image repository deletes only the
oldest image and keeps the other. -/
theorem prune_negative_keep_cex :
    (process_repository (-1) [⟨some "a", some 2⟩, ⟨some "b", some 1⟩]).batchCall = some ["b"]
    ∧ deletedCount (some (process_repository (-1)
        [⟨some "a", some 2⟩, ⟨some "b", some 1⟩])) = 1
    ∧ keptImages (-1) (process_repository (-1) [⟨some "a", some 2⟩, ⟨some "b", some 1⟩]) =
        [⟨some "a", some 2⟩] := by
  decide

/-- C6 amended: for negative `keepCount`, Python slice semantics select
the `|keepCount|` oldest images (the last `min(|keepCount|, len)` of the
descending sort) for deletion and keep the other `len − |keepCount|`;
the whole repository is selected only when `|keepCount| ≥ len`.  With
every image digested, exactly `min(|keepCount|, len)` are deleted. -/
theorem prune_negative_keep_amended (images : List ImageDetail) (k : Int) (hk : k < 0) :
    (process_repository k images).imagesToDelete.length = min (-k).toNat images.length
    ∧ (keptImages k (process_repository k images)).length = images.length - (-k).toNat
    ∧ ((images.length : Int) ≤ -k →
        (process_repository k images).imagesToDelete = (process_repository k images).sorted)
    ∧ ((∀ img ∈ images, img.imageDigest.isSome) →
        deletedCount (some (process_repository k images)) = min (-k).toNat images.length) := by
  have hlen : (sortDesc images).length = images.length := sortDesc_length images
  have hTD : (process_repository k images).imagesToDelete =
      (sortDesc images).drop (((sortDesc images).length : Int) + k).toNat := by
    rw [process_repository_toDelete, pySliceFrom_neg hk]
  have hTDlen : (process_repository k images).imagesToDelete.length =
      min (-k).toNat images.length := by
    rw [hTD, List.length_drop, hlen]
    omega
  refine ⟨hTDlen, ?_, ?_, ?_⟩
  · rw [keptImages, process_repository_sorted, pySliceTake_neg hk, List.length_take, hlen]
    omega
  · intro hle
    have h0 : (((sortDesc images).length : Int) + k).toNat = 0 := by
      rw [hlen]
      omega
    rw [hTD, h0, List.drop_zero, process_repository_sorted]
  · intro hdig
    by_cases hempty :
        (sortDesc images).drop (((sortDesc images).length : Int) + k).toNat = []
    · have h1 :
          ((sortDesc images).drop (((sortDesc images).length : Int) + k).toNat).length = 0 := by
        rw [hempty]
        rfl
      rw [List.length_drop, hlen] at h1
      have hb := process_repository_batch_none_of_empty k images
        (by rw [pySliceFrom_neg hk]; exact hempty)
      simp only [deletedCount, hb, Option.getD_none, List.length_nil]
      omega
    · have hmemdig : ∀ x ∈
          (sortDesc images).drop (((sortDesc images).length : Int) + k).toNat,
          x.imageDigest.isSome := by
        intro x hx
        exact hdig x ((sortDesc_perm images).mem_iff.mp (List.mem_of_mem_drop hx))
      have hids_len :
          (((sortDesc images).drop (((sortDesc images).length : Int) + k).toNat).filterMap
              (fun i => i.imageDigest)).length =
            ((sortDesc images).drop (((sortDesc images).length : Int) + k).toNat).length :=
        length_filterMap_digest _ hmemdig
      have hids_ne :
          ((sortDesc images).drop (((sortDesc images).length : Int) + k).toNat).filterMap
              (fun i => i.imageDigest) ≠ [] := by
        intro hc
        rw [hc] at hids_len
        exact hempty (List.length_eq_zero.mp hids_len.symm)
      have hb := process_repository_batch_some k images
        (by rw [pySliceFrom_neg hk]; exact hempty)
        (by rw [pySliceFrom_neg hk]; exact hids_ne)
      rw [pySliceFrom_neg hk] at hb
      simp only [deletedCount, hb, Option.getD_some]
      rw [hids_len, List.length_drop, hlen]
      omega

/-- Witness for the amended C6 at a concrete input: `keepCount = -1` on
two digested images deletes exactly `min(1, 2) = 1` image. -/
theorem prune_negative_keep_amended_witness :
    deletedCount (some (process_repository (-1)
        [⟨some "x", some 7⟩, ⟨some "y", some 3⟩])) = 1 := by
  have h := (prune_negative_keep_amended
      [⟨some "x", some 7⟩, ⟨some "y", some 3⟩] (-1) (by decide)).2.2.2 (by decide)
  simpa using h
